import Mathlib

/-!
# Verification of the emacs-ng webrender event-loop bridge

Shallow embedding of `rust_src/crates/webrender/src/event_loop.rs`.

The central function is `wr_select1`, a drop-in replacement for the host's
`pselect` that additionally drives one bounded run of the winit GUI event
loop, capturing qualifying window events into a process-wide event buffer
and signalling the host via `SIGIO`/`EINTR`.

The winit `run_return` loop is modelled as a fold over the list of events
the toolkit delivers before the computed deadline; external primitives
(`thread_select`, `libc::pselect`) are oracles passed as function
parameters, since their internals live outside this crate.
-/

namespace EmacsNg

/-- Winit `WindowEvent` variants, with payloads reduced to the data the
bridge inspects (it only matches on the constructor).  The nine
constructors up to `CloseRequested` are exactly the arms of the first
`match` branch of `wr_select1`; `Moved` and `Other` stand for the
remaining, non-matching variants (`_ => {}`). -/
inductive WinWindowEvent where
  | Resized (w h : Nat)
  | KeyboardInput (scancode : Nat) (pressed : Bool)
  | ReceivedCharacter (c : Nat)
  | ModifiersChanged (m : Nat)
  | MouseInput (button : Nat) (pressed : Bool)
  | CursorMoved (x y : Int)
  | Focused (b : Bool)
  | MouseWheel (delta : Int)
  | CloseRequested
  | Moved (x y : Int)
  | Other (tag : Nat)
  deriving Repr, DecidableEq

/-- Winit `StartCause` for `Event::NewEvents`. -/
inductive StartCause where
  | Init
  | ResumeTimeReached
  | WaitCancelled
  | Poll
  deriving Repr, DecidableEq

/-- Winit `Event<'static, i32>` (= `GUIEvent` in the source), restricted to
the constructors the two `run_return` closures of the source distinguish;
`MainEventsCleared` and `Suspended` represent events falling into the
`_ => {}` arms. -/
inductive WinEvent where
  | WindowEvent (window_id : Nat) (event : WinWindowEvent)
  | UserEvent (nfds : Int)
  | RedrawEventsCleared
  | NewEvents (cause : StartCause)
  | MainEventsCleared
  | Suspended
  deriving Repr, DecidableEq

/-- The guard of the first match arm of `wr_select1`'s event-loop closure:
`Resized | KeyboardInput | ReceivedCharacter | ModifiersChanged |
MouseInput | CursorMoved | Focused | MouseWheel | CloseRequested`. -/
def isQualifying : WinWindowEvent → Bool
  | .Resized _ _ => true
  | .KeyboardInput _ _ => true
  | .ReceivedCharacter _ => true
  | .ModifiersChanged _ => true
  | .MouseInput _ _ => true
  | .CursorMoved _ _ => true
  | .Focused _ => true
  | .MouseWheel _ => true
  | .CloseRequested => true
  | .Moved _ _ => false
  | .Other _ => false

/-- Value of `libc::EINTR` on the targeted platforms. -/
def EINTR : Int := 4

/-- Thread-visible state threaded through a bridge call: the process-wide
`EVENT_BUFFER`, the calling thread's `errno` (None = never set), whether
`signal::raise(Signal::SIGIO)` has fired, and the `nfds_result` cell
(initialised to `0` at the top of `wr_select1`). -/
structure LoopState where
  eventBuffer : List WinEvent
  errno : Option Int
  sigioRaised : Bool
  nfdsResult : Int
  deriving Repr, DecidableEq

/-- One invocation of the closure passed to `run_return` inside
`wr_select1`.  Returns the updated state and whether the closure set
`ControlFlow::Exit`.  Mirrors the source `match e` arm for arm:
a qualifying window event pushes an owned copy onto the buffer, raises
SIGIO, sets `errno = EINTR`, stores `-1` and exits; `UserEvent(nfds)`
stores `nfds` and exits; `RedrawEventsCleared` exits; everything else is
ignored. -/
def stepEvent (s : LoopState) (e : WinEvent) : LoopState × Bool :=
  match e with
  | .WindowEvent _ ev =>
      if isQualifying ev then
        ({ s with
            eventBuffer := s.eventBuffer ++ [e],
            sigioRaised := true,
            errno := some EINTR,
            nfdsResult := -1 }, true)
      else (s, false)
  | .UserEvent nfds => ({ s with nfdsResult := nfds }, true)
  | .RedrawEventsCleared => (s, true)
  | _ => (s, false)

/-- Model of `run_return` as a fold: deliver the events the toolkit produces before
the deadline, in order, stopping as soon as the closure sets
`ControlFlow::Exit`.  Exhausting the list without an exit models the
deadline being reached with no decisive event. -/
def runReturn (s : LoopState) : List WinEvent → LoopState
  | [] => s
  | e :: rest =>
      let (s1, ex) := stepEvent s e
      if ex then s1 else runReturn s1 rest

/-- A C `struct timespec`. -/
structure Timespec where
  tv_sec : Int
  tv_nsec : Int
  deriving Repr, DecidableEq

/-- The six arguments of `wr_select1`.  Descriptor-set and signal-mask
pointers are opaque identifiers: the bridge never inspects them, it only
passes them through.  `timeout : Option Timespec` models the
`*mut timespec`, `none` being the null pointer. -/
structure SelectArgs where
  nfds : Int
  readfds : Nat
  writefds : Nat
  exceptfds : Nat
  timeout : Option Timespec
  sigmask : Nat
  deriving Repr, DecidableEq

/-- An invocation of the raw `libc::pselect` fallback: the original
descriptor sets and mask, with the timeout the bridge chose. -/
structure PselectCall where
  nfds : Int
  readfds : Nat
  writefds : Nat
  exceptfds : Nat
  timeout : Timespec
  sigmask : Nat
  deriving Repr, DecidableEq

/-- Modelled from the spec: `make_timespec` is an emacs-core binding not in
this crate; per the spec the fallback performs "the real, underlying
non-blocking check (timeout forced to zero)", and the source calls it as
`make_timespec(0, 0)`, so it builds the timespec from its two arguments. -/
def make_timespec (s ns : Int) : Timespec := ⟨s, ns⟩

/-- Cast `ts.tv_sec as u64`: two's-complement cast of a C `time_t` to `u64`. -/
def toU64 (i : Int) : Nat := (i % (2 : Int) ^ 64).toNat

/-- Cast `ts.tv_nsec as u32`: two's-complement cast to `u32`. -/
def toU32 (i : Int) : Nat := (i % (2 : Int) ^ 32).toNat

/-- Rust `Duration::new(secs, nanos)` measured in total nanoseconds (nanos ≥
10^9 carry into seconds, which total-nanosecond arithmetic performs
automatically). -/
def durationNew (secs nanos : Nat) : Nat := secs * 10 ^ 9 + nanos

/-- The deadline computation of `wr_select1` (instants in nanoseconds):
`Instant::now() + Duration::new((*timeout).tv_sec as u64, (*timeout).tv_nsec as u32)`.
The dereference is unconditional, so a null `timeout` leaves the
computation undefined (`none`). -/
def computeDeadline (now : Nat) (timeout : Option Timespec) : Option Nat :=
  timeout.map fun ts => now + durationNew (toU64 ts.tv_sec) (toU32 ts.tv_nsec)

/-- The bridge `wr_select1`.  Here `inhibit` is the process-wide `inhibit_window_system`
flag; `threadSelect` is the emacs-core `thread_select` primitive (an
oracle — the bridge hands it all six arguments unchanged); `pselectFn` is
raw `libc::pselect` (an oracle); `events` is the list of events winit
delivers before the computed deadline; `s` is the thread state on entry.
Returns `none` when the behaviour is undefined (null `timeout` dereference
on the non-inhibited path), otherwise the return value and the final
state. -/
def wr_select1 (inhibit : Bool) (threadSelect : SelectArgs → Int)
    (pselectFn : PselectCall → Int) (args : SelectArgs)
    (events : List WinEvent) (s : LoopState) : Option (Int × LoopState) :=
  if inhibit then
    some (threadSelect args, s)
  else
    match args.timeout with
    | none => none
    | some _ =>
        let s1 := runReturn { s with nfdsResult := 0 } events
        let ret := s1.nfdsResult
        if ret = 0 then
          some (pselectFn
            { nfds := args.nfds, readfds := args.readfds,
              writefds := args.writefds, exceptfds := args.exceptfds,
              timeout := make_timespec 0 0, sigmask := args.sigmask }, s1)
        else
          some (ret, s1)

/-- An event on which the closure of `wr_select1` does not set
`ControlFlow::Exit`: a non-qualifying window event or a bookkeeping
event. -/
def nonExiting (e : WinEvent) : Bool :=
  match e with
  | .WindowEvent _ ev => !isQualifying ev
  | .UserEvent _ => false
  | .RedrawEventsCleared => false
  | _ => true

/-- The qualifying window events a single event-loop run pushes onto
`EVENT_BUFFER`, in capture order: the first decisive event ends the run,
so at most one is captured, and it is captured only when the first
decisive event is a qualifying window event. -/
def capturedEvents : List WinEvent → List WinEvent
  | [] => []
  | e :: rest =>
      match e with
      | .WindowEvent _ ev => if isQualifying ev then [e] else capturedEvents rest
      | .UserEvent _ => []
      | .RedrawEventsCleared => []
      | _ => capturedEvents rest

/-- One bridge invocation for sequencing: the `inhibit_window_system` flag
as read at call time, the six arguments, and the events winit delivers
during the call. -/
structure BridgeCall where
  inhibit : Bool
  args : SelectArgs
  events : List WinEvent

/-- The events a single bridge call appends to `EVENT_BUFFER`: none on the
inhibited bypass, otherwise the run's captured events. -/
def capturedBy (c : BridgeCall) : List WinEvent :=
  if c.inhibit then [] else capturedEvents c.events

/-- A sequence of bridge calls with no intervening drain, threading the
thread-visible state. -/
def runCalls (threadSelect : SelectArgs → Int) (pselectFn : PselectCall → Int) :
    List BridgeCall → LoopState → Option LoopState
  | [], s => some s
  | c :: cs, s =>
      match wr_select1 c.inhibit threadSelect pselectFn c.args c.events s with
      | none => none
      | some (_, s1) => runCalls threadSelect pselectFn cs s1

/-- The adapter's lazily-initialized fields; `connection : Option Nat`
models `pub connection: Option<Connection>`, a connection being an opaque
identity. -/
structure WrEventLoop where
  connection : Option Nat
  deriving Repr, DecidableEq

/-- The `EVENT_LOOP` static initializer: `let connection = None;` — the
adapter starts with the Display Connection unset. -/
def initialWrEventLoop : WrEventLoop := { connection := none }

/-- Method `WrEventLoop::open_native_display`: builds an invisible window, asks
the toolkit for a native connection (`newConn`, the oracle for
`Connection::from_winit_window`), stores it unconditionally and returns a
reference to the stored field. -/
def open_native_display (newConn : Nat) (s : WrEventLoop) :
    WrEventLoop × Option Nat :=
  let s1 : WrEventLoop := { s with connection := some newConn }
  (s1, s1.connection)

/-- Method `WrEventLoop::connection`: opens the native display only when the
field is `None`, then unwraps the stored field.  The `Option Nat` result
models `self.connection.as_ref().unwrap()` — `none` would be the unwrap
panic. -/
def connection_method (newConn : Nat) (s : WrEventLoop) :
    WrEventLoop × Option Nat :=
  let s1 := if s.connection.isNone then (open_native_display newConn s).1 else s
  (s1, s1.connection)

/-- Rust `Duration::from_millis` in nanoseconds. -/
def durationFromMillis (ms : Nat) : Nat := ms * 10 ^ 6

/-- The deadline of `wait_for_window_resize`:
`Instant::now() + Duration::from_millis(100)`. -/
def resizeDeadline (now : Nat) : Nat := now + durationFromMillis 100

/-- The two normal exits of `wait_for_window_resize`. -/
inductive ResizeExit where
  | resizeObserved
  | timedOut
  deriving Repr, DecidableEq

/-- One invocation of the closure of `wait_for_window_resize`: `none`
means the closure returned without setting `ControlFlow::Exit`
(`NewEvents(Init)` arms the wait-until-deadline policy, a resize for
another window and all other events fall through). -/
def resizeStep (target : Nat) (e : WinEvent) : Option ResizeExit :=
  match e with
  | .NewEvents .Init => none
  | .NewEvents .ResumeTimeReached => some .timedOut
  | .WindowEvent wid (.Resized _ _) =>
      if target = wid then some .resizeObserved else none
  | _ => none

/-- Method `WrEventLoop::wait_for_window_resize` over the delivered event list:
runs until the first decisive event.  `none` models the stream ending
without either exit (winit injects `ResumeTimeReached` at the deadline, so
a run that reaches the deadline contains a decisive event). -/
def wait_for_window_resize (target : Nat) : List WinEvent → Option ResizeExit
  | [] => none
  | e :: rest =>
      match resizeStep target e with
      | some o => some o
      | none => wait_for_window_resize target rest

/-- Method `WrEventLoop::get_primary_monitor`:
`primary_monitor().unwrap_or_else(|| available_monitors().next().unwrap())`.
Monitors are opaque identities; the `Option` result models the inner
`unwrap` — `none` is the fatal panic when no monitors exist. -/
def get_primary_monitor (primary : Option Nat) (monitors : List Nat) :
    Option Nat :=
  match primary with
  | some m => some m
  | none => monitors.head?

/-! ## Helper lemmas about a single event-loop run -/

lemma stepEvent_nonExiting (s : LoopState) (e : WinEvent)
    (h : nonExiting e = true) : stepEvent s e = (s, false) := by
  cases e with
  | WindowEvent wid ev =>
      simp only [nonExiting, Bool.not_eq_true'] at h
      simp [stepEvent, h]
  | UserEvent n => simp [nonExiting] at h
  | RedrawEventsCleared => simp [nonExiting] at h
  | NewEvents c => simp [stepEvent]
  | MainEventsCleared => simp [stepEvent]
  | Suspended => simp [stepEvent]

lemma runReturn_cons_nonExiting (s : LoopState) (e : WinEvent)
    (l : List WinEvent) (h : nonExiting e = true) :
    runReturn s (e :: l) = runReturn s l := by
  simp [runReturn, stepEvent_nonExiting s e h]

lemma runReturn_skip_prefix (s : LoopState) (pre l : List WinEvent)
    (h : ∀ e ∈ pre, nonExiting e = true) :
    runReturn s (pre ++ l) = runReturn s l := by
  induction pre with
  | nil => rfl
  | cons e pre ih =>
      rw [List.cons_append,
        runReturn_cons_nonExiting s e (pre ++ l) (h e (by simp))]
      exact ih fun x hx => h x (by simp [hx])

lemma capturedEvents_cons_nonExiting (e : WinEvent) (l : List WinEvent)
    (h : nonExiting e = true) :
    capturedEvents (e :: l) = capturedEvents l := by
  cases e with
  | WindowEvent wid ev =>
      simp only [nonExiting, Bool.not_eq_true'] at h
      simp [capturedEvents, h]
  | UserEvent n => simp [nonExiting] at h
  | RedrawEventsCleared => simp [nonExiting] at h
  | NewEvents c => simp [capturedEvents]
  | MainEventsCleared => simp [capturedEvents]
  | Suspended => simp [capturedEvents]

lemma capturedEvents_skip_prefix (pre l : List WinEvent)
    (h : ∀ e ∈ pre, nonExiting e = true) :
    capturedEvents (pre ++ l) = capturedEvents l := by
  induction pre with
  | nil => rfl
  | cons e pre ih =>
      rw [List.cons_append,
        capturedEvents_cons_nonExiting e (pre ++ l) (h e (by simp))]
      exact ih fun x hx => h x (by simp [hx])

lemma runReturn_qualifying (s : LoopState) (wid : Nat) (ev : WinWindowEvent)
    (l : List WinEvent) (h : isQualifying ev = true) :
    runReturn s (WinEvent.WindowEvent wid ev :: l) =
      { s with
          eventBuffer := s.eventBuffer ++ [WinEvent.WindowEvent wid ev],
          sigioRaised := true,
          errno := some EINTR,
          nfdsResult := -1 } := by
  simp [runReturn, stepEvent, h]

lemma runReturn_user (s : LoopState) (n : Int) (l : List WinEvent) :
    runReturn s (WinEvent.UserEvent n :: l) = { s with nfdsResult := n } := by
  simp [runReturn, stepEvent]

lemma runReturn_redraw (s : LoopState) (l : List WinEvent) :
    runReturn s (WinEvent.RedrawEventsCleared :: l) = s := by
  simp [runReturn, stepEvent]

lemma runReturn_eventBuffer (s : LoopState) (l : List WinEvent) :
    (runReturn s l).eventBuffer = s.eventBuffer ++ capturedEvents l := by
  induction l generalizing s with
  | nil => simp [runReturn, capturedEvents]
  | cons e l ih =>
      cases e with
      | WindowEvent wid ev =>
          by_cases hq : isQualifying ev = true
          · rw [runReturn_qualifying s wid ev l hq]
            simp [capturedEvents, hq]
          · have hne : nonExiting (WinEvent.WindowEvent wid ev) = true := by
              simp [nonExiting, Bool.not_eq_true] at hq ⊢
              exact hq
            rw [runReturn_cons_nonExiting s _ l hne,
              capturedEvents_cons_nonExiting _ l hne]
            exact ih s
      | UserEvent n => simp [runReturn_user, capturedEvents]
      | RedrawEventsCleared => simp [runReturn_redraw, capturedEvents]
      | NewEvents c =>
          rw [runReturn_cons_nonExiting s _ l (by simp [nonExiting]),
            capturedEvents_cons_nonExiting _ l (by simp [nonExiting])]
          exact ih s
      | MainEventsCleared =>
          rw [runReturn_cons_nonExiting s _ l (by simp [nonExiting]),
            capturedEvents_cons_nonExiting _ l (by simp [nonExiting])]
          exact ih s
      | Suspended =>
          rw [runReturn_cons_nonExiting s _ l (by simp [nonExiting]),
            capturedEvents_cons_nonExiting _ l (by simp [nonExiting])]
          exact ih s

lemma runReturn_sigio (s : LoopState) (l : List WinEvent) :
    (runReturn s l).sigioRaised =
      (s.sigioRaised || !(capturedEvents l).isEmpty) := by
  induction l generalizing s with
  | nil => simp [runReturn, capturedEvents]
  | cons e l ih =>
      cases e with
      | WindowEvent wid ev =>
          by_cases hq : isQualifying ev = true
          · rw [runReturn_qualifying s wid ev l hq]
            simp [capturedEvents, hq]
          · have hne : nonExiting (WinEvent.WindowEvent wid ev) = true := by
              simp [nonExiting, Bool.not_eq_true] at hq ⊢
              exact hq
            rw [runReturn_cons_nonExiting s _ l hne,
              capturedEvents_cons_nonExiting _ l hne]
            exact ih s
      | UserEvent n => simp [runReturn_user, capturedEvents]
      | RedrawEventsCleared => simp [runReturn_redraw, capturedEvents]
      | NewEvents c =>
          rw [runReturn_cons_nonExiting s _ l (by simp [nonExiting]),
            capturedEvents_cons_nonExiting _ l (by simp [nonExiting])]
          exact ih s
      | MainEventsCleared =>
          rw [runReturn_cons_nonExiting s _ l (by simp [nonExiting]),
            capturedEvents_cons_nonExiting _ l (by simp [nonExiting])]
          exact ih s
      | Suspended =>
          rw [runReturn_cons_nonExiting s _ l (by simp [nonExiting]),
            capturedEvents_cons_nonExiting _ l (by simp [nonExiting])]
          exact ih s

lemma runReturn_errno (s : LoopState) (l : List WinEvent) :
    (runReturn s l).errno =
      if (capturedEvents l).isEmpty then s.errno else some EINTR := by
  induction l generalizing s with
  | nil => simp [runReturn, capturedEvents]
  | cons e l ih =>
      cases e with
      | WindowEvent wid ev =>
          by_cases hq : isQualifying ev = true
          · rw [runReturn_qualifying s wid ev l hq]
            simp [capturedEvents, hq]
          · have hne : nonExiting (WinEvent.WindowEvent wid ev) = true := by
              simp [nonExiting, Bool.not_eq_true] at hq ⊢
              exact hq
            rw [runReturn_cons_nonExiting s _ l hne,
              capturedEvents_cons_nonExiting _ l hne]
            exact ih s
      | UserEvent n => simp [runReturn_user, capturedEvents]
      | RedrawEventsCleared => simp [runReturn_redraw, capturedEvents]
      | NewEvents c =>
          rw [runReturn_cons_nonExiting s _ l (by simp [nonExiting]),
            capturedEvents_cons_nonExiting _ l (by simp [nonExiting])]
          exact ih s
      | MainEventsCleared =>
          rw [runReturn_cons_nonExiting s _ l (by simp [nonExiting]),
            capturedEvents_cons_nonExiting _ l (by simp [nonExiting])]
          exact ih s
      | Suspended =>
          rw [runReturn_cons_nonExiting s _ l (by simp [nonExiting]),
            capturedEvents_cons_nonExiting _ l (by simp [nonExiting])]
          exact ih s

lemma wr_select1_not_inhibited (threadSelect : SelectArgs → Int)
    (pselectFn : PselectCall → Int) (args : SelectArgs) (ts : Timespec)
    (events : List WinEvent) (s : LoopState) (hto : args.timeout = some ts) :
    wr_select1 false threadSelect pselectFn args events s =
      (if (runReturn { s with nfdsResult := 0 } events).nfdsResult = 0 then
        some (pselectFn
          { nfds := args.nfds, readfds := args.readfds,
            writefds := args.writefds, exceptfds := args.exceptfds,
            timeout := make_timespec 0 0, sigmask := args.sigmask },
          runReturn { s with nfdsResult := 0 } events)
      else
        some ((runReturn { s with nfdsResult := 0 } events).nfdsResult,
          runReturn { s with nfdsResult := 0 } events)) := by
  simp [wr_select1, hto]

lemma runReturn_all_nonExiting (s : LoopState) (l : List WinEvent)
    (h : ∀ e ∈ l, nonExiting e = true) : runReturn s l = s := by
  have := runReturn_skip_prefix s l [] h
  simpa [runReturn] using this

lemma capturedEvents_length (l : List WinEvent) :
    (capturedEvents l).length ≤ 1 := by
  induction l with
  | nil => simp [capturedEvents]
  | cons e l ih =>
      cases e with
      | WindowEvent wid ev =>
          by_cases hq : isQualifying ev = true
          · simp [capturedEvents, hq]
          · simp only [Bool.not_eq_true] at hq
            simpa [capturedEvents, hq] using ih
      | UserEvent n => simp [capturedEvents]
      | RedrawEventsCleared => simp [capturedEvents]
      | NewEvents c => simpa [capturedEvents] using ih
      | MainEventsCleared => simpa [capturedEvents] using ih
      | Suspended => simpa [capturedEvents] using ih

/-! ## Claim theorems -/

/-- C1: on a non-inhibited bridge call, if a window event in the relevant
set arrives before the deadline (after only non-decisive events), the call
appends exactly one owned copy of that event to the Event Buffer, raises
SIGIO, sets errno to EINTR, returns the interrupted sentinel `-1`, and
exits the loop immediately — the result does not depend on any later
events `rest`. -/
theorem wr_select1_qualifying_interrupt (threadSelect : SelectArgs → Int)
    (pselectFn : PselectCall → Int) (args : SelectArgs) (ts : Timespec)
    (hto : args.timeout = some ts) (pre rest : List WinEvent)
    (hpre : ∀ e ∈ pre, nonExiting e = true) (wid : Nat)
    (ev : WinWindowEvent) (hq : isQualifying ev = true) (s : LoopState) :
    wr_select1 false threadSelect pselectFn args
        (pre ++ WinEvent.WindowEvent wid ev :: rest) s =
      some (-1,
        { eventBuffer := s.eventBuffer ++ [WinEvent.WindowEvent wid ev],
          errno := some EINTR, sigioRaised := true, nfdsResult := -1 }) := by
  rw [wr_select1_not_inhibited threadSelect pselectFn args ts _ s hto,
    runReturn_skip_prefix _ pre _ hpre, runReturn_qualifying _ wid ev rest hq]
  norm_num

/-- C1 witness: a concrete cursor-move event after an `Init` bookkeeping
event interrupts the call, buffering the event and returning `-1`. -/
theorem wr_select1_qualifying_interrupt_witness :
    wr_select1 false (fun _ => 0) (fun _ => 0)
        ⟨1, 10, 11, 12, some ⟨2, 0⟩, 13⟩
        ([WinEvent.NewEvents .Init] ++
          WinEvent.WindowEvent 7 (.CursorMoved 3 4) :: [WinEvent.UserEvent 5])
        ⟨[], none, false, 0⟩ =
      some (-1,
        { eventBuffer := [WinEvent.WindowEvent 7 (.CursorMoved 3 4)],
          errno := some EINTR, sigioRaised := true, nfdsResult := -1 }) :=
  wr_select1_qualifying_interrupt (fun _ => 0) (fun _ => 0)
    ⟨1, 10, 11, 12, some ⟨2, 0⟩, 13⟩ ⟨2, 0⟩ rfl
    [WinEvent.NewEvents .Init] [WinEvent.UserEvent 5] (by decide)
    7 (.CursorMoved 3 4) (by decide) ⟨[], none, false, 0⟩

/-- C2 counterexample: the claim quantifies over every integer `n`, but a
wake notification carrying `n = 0` leaves `nfds_result = 0`, so the bridge
takes the neutral fallback and returns the zero-timeout `pselect` result
(here 7), not 0. -/
theorem wr_select1_wake_zero_counterexample :
    wr_select1 false (fun _ => 0) (fun _ => 7) ⟨1, 10, 11, 12, some ⟨1, 0⟩, 13⟩
        [WinEvent.UserEvent 0] ⟨[], none, false, 0⟩ =
      some (7, ⟨[], none, false, 0⟩) ∧ (7 : Int) ≠ 0 := by
  constructor
  · rfl
  · decide

/-- C2 amended: for every *nonzero* integer `n`, a wake notification
carrying `n` received before the deadline makes the bridge return exactly
`n`, and the Event Buffer (with errno and the SIGIO flag) is not modified
by this path.  (For `n = 0` the call falls through to the neutral
zero-timeout fallback, still without modifying the Event Buffer.) -/
theorem wr_select1_wake_nonzero (threadSelect : SelectArgs → Int)
    (pselectFn : PselectCall → Int) (args : SelectArgs) (ts : Timespec)
    (hto : args.timeout = some ts) (pre rest : List WinEvent)
    (hpre : ∀ e ∈ pre, nonExiting e = true) (n : Int) (hn : n ≠ 0)
    (s : LoopState) :
    wr_select1 false threadSelect pselectFn args
        (pre ++ WinEvent.UserEvent n :: rest) s =
      some (n,
        { eventBuffer := s.eventBuffer, errno := s.errno,
          sigioRaised := s.sigioRaised, nfdsResult := n }) := by
  rw [wr_select1_not_inhibited threadSelect pselectFn args ts _ s hto,
    runReturn_skip_prefix _ pre _ hpre, runReturn_user _ n rest]
  simp [hn]

/-- C2 witness: a concrete wake with `n = 3` returns 3 with the buffer
untouched. -/
theorem wr_select1_wake_nonzero_witness :
    wr_select1 false (fun _ => 0) (fun _ => 7) ⟨1, 10, 11, 12, some ⟨1, 0⟩, 13⟩
        ([WinEvent.NewEvents .Init] ++ WinEvent.UserEvent 3 :: [])
        ⟨[], none, false, 0⟩ =
      some (3,
        { eventBuffer := [], errno := none, sigioRaised := false,
          nfdsResult := 3 }) :=
  wr_select1_wake_nonzero (fun _ => 0) (fun _ => 7)
    ⟨1, 10, 11, 12, some ⟨1, 0⟩, 13⟩ ⟨1, 0⟩ rfl
    [WinEvent.NewEvents .Init] [] (by decide) 3 (by decide)
    ⟨[], none, false, 0⟩

/-- C3: with the window system inhibited, the bridge calls the real
blocking-wait primitive with all six arguments unchanged and returns its
result verbatim; no event-loop iteration occurs (the delivered events are
irrelevant) and the thread state — Event Buffer included — is untouched. -/
theorem wr_select1_inhibited_bypass (threadSelect : SelectArgs → Int)
    (pselectFn : PselectCall → Int) (args : SelectArgs)
    (events : List WinEvent) (s : LoopState) :
    wr_select1 true threadSelect pselectFn args events s =
      some (threadSelect args, s) := by
  simp [wr_select1]

/-- C4: a non-inhibited call whose run ends neutrally — every delivered
event is non-decisive (deadline reached), or an events-cleared
notification arrives after only non-decisive events — performs the real
check with the timeout forced to zero against the original descriptor
sets and signal mask, and returns that check's ready-count. -/
theorem wr_select1_neutral_fallback (threadSelect : SelectArgs → Int)
    (pselectFn : PselectCall → Int) (args : SelectArgs) (ts : Timespec)
    (hto : args.timeout = some ts) (events : List WinEvent) (s : LoopState)
    (hneu : (∀ e ∈ events, nonExiting e = true) ∨
      ∃ pre rest, events = pre ++ WinEvent.RedrawEventsCleared :: rest ∧
        ∀ e ∈ pre, nonExiting e = true) :
    wr_select1 false threadSelect pselectFn args events s =
      some (pselectFn
        { nfds := args.nfds, readfds := args.readfds,
          writefds := args.writefds, exceptfds := args.exceptfds,
          timeout := make_timespec 0 0, sigmask := args.sigmask },
        { eventBuffer := s.eventBuffer, errno := s.errno,
          sigioRaised := s.sigioRaised, nfdsResult := 0 }) := by
  rw [wr_select1_not_inhibited threadSelect pselectFn args ts _ s hto]
  have hrun : runReturn { s with nfdsResult := 0 } events =
      { s with nfdsResult := 0 } := by
    rcases hneu with hall | ⟨pre, rest, hev, hpre⟩
    · exact runReturn_all_nonExiting _ events hall
    · rw [hev, runReturn_skip_prefix _ pre _ hpre, runReturn_redraw]
  rw [hrun]
  simp

lemma wr_select1_buffer (c : BridgeCall) (threadSelect : SelectArgs → Int)
    (pselectFn : PselectCall → Int) (s : LoopState) (r : Int)
    (s1 : LoopState)
    (h : wr_select1 c.inhibit threadSelect pselectFn c.args c.events s =
      some (r, s1)) :
    s1.eventBuffer = s.eventBuffer ++ capturedBy c := by
  cases hi : c.inhibit with
  | true =>
      rw [hi] at h
      simp only [wr_select1, if_true, Option.some.injEq, Prod.mk.injEq] at h
      rw [← h.2, capturedBy, hi]
      simp
  | false =>
      rw [hi] at h
      cases hto : c.args.timeout with
      | none => simp [wr_select1, hto] at h
      | some ts =>
          rw [wr_select1_not_inhibited threadSelect pselectFn c.args ts
            c.events s hto] at h
          have hbuf := runReturn_eventBuffer { s with nfdsResult := 0 } c.events
          split at h <;>
            simp only [Option.some.injEq, Prod.mk.injEq] at h <;>
            · rw [← h.2]
              rw [capturedBy, hi]
              simpa using hbuf

/-- C4 witness: a run seeing only bookkeeping events returns the
zero-timeout fallback result (here 7). -/
theorem wr_select1_neutral_fallback_witness :
    wr_select1 false (fun _ => 0) (fun _ => 7) ⟨1, 10, 11, 12, some ⟨1, 0⟩, 13⟩
        [WinEvent.NewEvents .Init, WinEvent.MainEventsCleared]
        ⟨[], none, false, 0⟩ =
      some (7,
        { eventBuffer := [], errno := none, sigioRaised := false,
          nfdsResult := 0 }) :=
  wr_select1_neutral_fallback (fun _ => 0) (fun _ => 7)
    ⟨1, 10, 11, 12, some ⟨1, 0⟩, 13⟩ ⟨1, 0⟩ rfl
    [WinEvent.NewEvents .Init, WinEvent.MainEventsCleared]
    ⟨[], none, false, 0⟩ (Or.inl (by decide))

/-- C5: across a sequence of bridge calls with no intervening drain, each
call appends at most one qualifying event, and the final Event Buffer is
exactly the initial buffer followed by the concatenation, in capture
order, of the events captured by each call — never reordered, never
deduplicated. -/
theorem runCalls_buffer_concat (threadSelect : SelectArgs → Int)
    (pselectFn : PselectCall → Int) (calls : List BridgeCall)
    (s s1 : LoopState)
    (h : runCalls threadSelect pselectFn calls s = some s1) :
    s1.eventBuffer = s.eventBuffer ++ (calls.map capturedBy).flatten ∧
      ∀ c ∈ calls, (capturedBy c).length ≤ 1 := by
  constructor
  · induction calls generalizing s with
    | nil =>
        simp only [runCalls, Option.some.injEq] at h
        simp [← h]
    | cons c cs ih =>
        simp only [runCalls] at h
        cases hw : wr_select1 c.inhibit threadSelect pselectFn c.args
            c.events s with
        | none => rw [hw] at h; exact absurd h (by simp)
        | some p =>
            obtain ⟨r, s2⟩ := p
            rw [hw] at h
            have hb := wr_select1_buffer c threadSelect pselectFn s r s2 hw
            have hrest := ih s2 h
            simp [hrest, hb, List.append_assoc]
  · intro c _
    rw [capturedBy]
    cases c.inhibit with
    | true => simp
    | false => simpa using capturedEvents_length c.events

/-- C5 witness: two concrete calls — one interrupted by a close request,
one woken with count 3 — leave the buffer equal to the concatenation of
their captures. -/
theorem runCalls_buffer_concat_witness :
    (⟨[WinEvent.WindowEvent 1 .CloseRequested], some EINTR, true, 3⟩ :
        LoopState).eventBuffer =
      (⟨[], none, false, 0⟩ : LoopState).eventBuffer ++
        (([⟨false, ⟨0, 0, 0, 0, some ⟨0, 0⟩, 0⟩,
              [WinEvent.WindowEvent 1 .CloseRequested]⟩,
           ⟨false, ⟨0, 0, 0, 0, some ⟨0, 0⟩, 0⟩,
              [WinEvent.UserEvent 3]⟩] : List BridgeCall).map
          capturedBy).flatten ∧
      ∀ c ∈ ([⟨false, ⟨0, 0, 0, 0, some ⟨0, 0⟩, 0⟩,
              [WinEvent.WindowEvent 1 .CloseRequested]⟩,
           ⟨false, ⟨0, 0, 0, 0, some ⟨0, 0⟩, 0⟩,
              [WinEvent.UserEvent 3]⟩] : List BridgeCall),
        (capturedBy c).length ≤ 1 :=
  runCalls_buffer_concat (fun _ => 0) (fun _ => 0)
    [⟨false, ⟨0, 0, 0, 0, some ⟨0, 0⟩, 0⟩,
        [WinEvent.WindowEvent 1 .CloseRequested]⟩,
     ⟨false, ⟨0, 0, 0, 0, some ⟨0, 0⟩, 0⟩, [WinEvent.UserEvent 3]⟩]
    ⟨[], none, false, 0⟩
    ⟨[WinEvent.WindowEvent 1 .CloseRequested], some EINTR, true, 3⟩
    (by decide)

/-- C6: the Display Connection starts unset (the static initializer), is
opened only when the field is `None` (first access), and the transition is
idempotent and irreversible: once set to `v`, every later access returns
`v` and leaves the state unchanged, whatever connection `c` the toolkit
would now produce. -/
theorem connection_method_spec (c : Nat) (s : WrEventLoop) :
    initialWrEventLoop.connection = none ∧
    (s.connection = none →
      connection_method c s = (⟨some c⟩, some c)) ∧
    (∀ v, s.connection = some v → connection_method c s = (s, some v)) := by
  refine ⟨rfl, ?_, ?_⟩
  · intro h
    simp [connection_method, open_native_display, h]
  · intro v h
    simp [connection_method, h]

/-- C6 witness: a first access opens connection 5; a later access with a
different prospective connection 9 still returns 5 and keeps the state. -/
theorem connection_method_spec_witness :
    connection_method 5 ⟨none⟩ = (⟨some 5⟩, some 5) ∧
    connection_method 9 ⟨some 5⟩ = (⟨some 5⟩, some 5) :=
  ⟨(connection_method_spec 5 ⟨none⟩).2.1 rfl,
   (connection_method_spec 9 ⟨some 5⟩).2.2 5 rfl⟩

lemma wait_for_window_resize_skip (target : Nat) (pre l : List WinEvent)
    (h : ∀ e ∈ pre, resizeStep target e = none) :
    wait_for_window_resize target (pre ++ l) =
      wait_for_window_resize target l := by
  induction pre with
  | nil => rfl
  | cons e pre ih =>
      rw [List.cons_append]
      simp only [wait_for_window_resize, h e (by simp)]
      exact ih fun x hx => h x (by simp [hx])

/-- C7: `wait_for_window_resize` exits on whichever comes first — a
`Resized` event whose window identifier equals the target, or the
deadline 100 ms after entry (`ResumeTimeReached`); a `Resized` event for
any other window does not cause an exit; both exits are ordinary values of
`ResizeExit`, not errors. -/
theorem wait_for_window_resize_spec (target now : Nat) :
    resizeDeadline now = now + 100 * 10 ^ 6 ∧
    (∀ pre rest w h, (∀ e ∈ pre, resizeStep target e = none) →
      wait_for_window_resize target
        (pre ++ WinEvent.WindowEvent target (.Resized w h) :: rest) =
        some .resizeObserved) ∧
    (∀ pre rest, (∀ e ∈ pre, resizeStep target e = none) →
      wait_for_window_resize target
        (pre ++ WinEvent.NewEvents .ResumeTimeReached :: rest) =
        some .timedOut) ∧
    (∀ other w h rest, other ≠ target →
      wait_for_window_resize target
        (WinEvent.WindowEvent other (.Resized w h) :: rest) =
        wait_for_window_resize target rest) := by
  refine ⟨rfl, ?_, ?_, ?_⟩
  · intro pre rest w h hpre
    rw [wait_for_window_resize_skip target pre _ hpre]
    simp [wait_for_window_resize, resizeStep]
  · intro pre rest hpre
    rw [wait_for_window_resize_skip target pre _ hpre]
    simp [wait_for_window_resize, resizeStep]
  · intro other w h rest hne
    simp only [wait_for_window_resize, resizeStep]
    rw [if_neg (show ¬target = other from fun hc => hne hc.symm)]

/-- C7 witness: window 2's resize after bookkeeping exits with
`resizeObserved`; a pure-deadline run exits with `timedOut`; window 3's
resize is ignored when waiting on window 2. -/
theorem wait_for_window_resize_spec_witness :
    resizeDeadline 0 = 0 + 100 * 10 ^ 6 ∧
    wait_for_window_resize 2
        ([WinEvent.NewEvents .Init] ++
          WinEvent.WindowEvent 2 (.Resized 8 6) :: []) =
      some .resizeObserved ∧
    wait_for_window_resize 2
        ([WinEvent.NewEvents .Init] ++
          WinEvent.NewEvents .ResumeTimeReached :: []) =
      some .timedOut ∧
    wait_for_window_resize 2
        (WinEvent.WindowEvent 3 (.Resized 8 6) ::
          [WinEvent.NewEvents .ResumeTimeReached]) =
      wait_for_window_resize 2 [WinEvent.NewEvents .ResumeTimeReached] :=
  ⟨(wait_for_window_resize_spec 2 0).1,
   (wait_for_window_resize_spec 2 0).2.1 [WinEvent.NewEvents .Init] [] 8 6
     (by decide),
   (wait_for_window_resize_spec 2 0).2.2.1 [WinEvent.NewEvents .Init] []
     (by decide),
   (wait_for_window_resize_spec 2 0).2.2.2 3 8 6
     [WinEvent.NewEvents .ResumeTimeReached] (by decide)⟩

/-- C8: `get_primary_monitor` returns the toolkit-designated primary
monitor when one exists, otherwise the first entry of the
available-monitors sequence; it fails (the fatal `unwrap`, modelled as
`none`) exactly when no primary is designated and no monitors exist. -/
theorem get_primary_monitor_spec (primary : Option Nat)
    (monitors : List Nat) :
    (∀ p, primary = some p →
      get_primary_monitor primary monitors = some p) ∧
    (primary = none →
      get_primary_monitor primary monitors = monitors.head?) ∧
    (get_primary_monitor primary monitors = none ↔
      primary = none ∧ monitors = []) := by
  refine ⟨?_, ?_, ?_⟩
  · intro p hp
    simp [get_primary_monitor, hp]
  · intro hp
    simp [get_primary_monitor, hp]
  · cases primary with
    | some m => simp [get_primary_monitor]
    | none =>
        cases monitors with
        | nil => simp [get_primary_monitor]
        | cons m ms => simp [get_primary_monitor]

/-- C8 witness: a designated primary wins over the list; with none
designated the head of the list is used; with no monitors at all the
lookup fails. -/
theorem get_primary_monitor_spec_witness :
    get_primary_monitor (some 4) [9, 10] = some 4 ∧
    get_primary_monitor none [9, 10] = ([9, 10] : List Nat).head? ∧
    (get_primary_monitor none ([] : List Nat) = none ↔
      (none : Option Nat) = none ∧ ([] : List Nat) = []) :=
  ⟨(get_primary_monitor_spec (some 4) [9, 10]).1 4 rfl,
   (get_primary_monitor_spec none [9, 10]).2.1 rfl,
   (get_primary_monitor_spec none []).2.2⟩

/-- C9: the deadline computation dereferences the timeout unconditionally,
so the bridge is undefined on a null timeout; for `tv_sec ≥ 0` (within
`i64`) and `0 ≤ tv_nsec < 10^9` the deadline is the intended
`now + tv_sec·10^9 + tv_nsec`; a negative `tv_sec` wraps through
`as u64` to at least `2^63`, a huge wait. -/
theorem computeDeadline_precondition (now : Nat) :
    computeDeadline now none = none ∧
    (∀ threadSelect pselectFn args events s, args.timeout = none →
      wr_select1 false threadSelect pselectFn args events s = none) ∧
    (∀ ts : Timespec, 0 ≤ ts.tv_sec → ts.tv_sec < 2 ^ 63 →
      0 ≤ ts.tv_nsec → ts.tv_nsec < 10 ^ 9 →
      computeDeadline now (some ts) =
        some (now + (ts.tv_sec.toNat * 10 ^ 9 + ts.tv_nsec.toNat))) ∧
    (∀ ts : Timespec, -(2 ^ 63) ≤ ts.tv_sec → ts.tv_sec < 0 →
      2 ^ 63 ≤ toU64 ts.tv_sec) := by
  refine ⟨rfl, ?_, ?_, ?_⟩
  · intro threadSelect pselectFn args events s h
    simp [wr_select1, h]
  · intro ts h1 h2 h3 h4
    have h63 : ((2 : Int) ^ 63) = 9223372036854775808 := by norm_num
    rw [h63] at h2
    norm_num at h4
    simp only [computeDeadline, Option.map_some', Option.some.injEq,
      durationNew, toU64, toU32]
    have h64 : ((2 : Int) ^ 64) = 18446744073709551616 := by norm_num
    have h32 : ((2 : Int) ^ 32) = 4294967296 := by norm_num
    have h9 : ((10 : Nat) ^ 9) = 1000000000 := by norm_num
    rw [h64, h32, h9]
    omega
  · intro ts h1 h2
    have h63 : ((2 : Int) ^ 63) = 9223372036854775808 := by norm_num
    rw [h63] at h1
    simp only [toU64]
    have h64 : ((2 : Int) ^ 64) = 18446744073709551616 := by norm_num
    have h63n : ((2 : Nat) ^ 63) = 9223372036854775808 := by norm_num
    rw [h64, h63n]
    omega

/-- C9 witness: a null timeout makes the bridge undefined; `{2, 500}`
yields the intended deadline; `tv_sec = -1` wraps to at least `2^63`
seconds. -/
theorem computeDeadline_precondition_witness :
    wr_select1 false (fun _ => 0) (fun _ => 0) ⟨0, 0, 0, 0, none, 0⟩ []
        ⟨[], none, false, 0⟩ = none ∧
    computeDeadline 0 (some ⟨2, 500⟩) =
      some (0 + ((2 : Int).toNat * 10 ^ 9 + (500 : Int).toNat)) ∧
    2 ^ 63 ≤ toU64 (-1) :=
  ⟨(computeDeadline_precondition 0).2.1 (fun _ => 0) (fun _ => 0)
     ⟨0, 0, 0, 0, none, 0⟩ [] ⟨[], none, false, 0⟩ rfl,
   (computeDeadline_precondition 0).2.2.1 ⟨2, 500⟩ (by decide) (by decide)
     (by decide) (by decide),
   (computeDeadline_precondition 0).2.2.2 ⟨-1, 0⟩ (by decide) (by decide)⟩

/-- C10: the bridge raises SIGIO and sets errno to EINTR if and only if
the run captured a qualifying window event; a wake notification reached
after only non-decisive events leaves the buffer, the SIGIO flag and errno
untouched and (for nonzero `n`, in particular every negative `n`,
including the sentinel-colliding `-1`) returns `n` verbatim. -/
theorem wr_select1_sigio_errno_iff (threadSelect : SelectArgs → Int)
    (pselectFn : PselectCall → Int) (args : SelectArgs) (ts : Timespec)
    (hto : args.timeout = some ts) (events : List WinEvent) (s : LoopState)
    (hs : s.sigioRaised = false) (herr : s.errno = none) (r : Int)
    (s1 : LoopState)
    (h : wr_select1 false threadSelect pselectFn args events s =
      some (r, s1)) :
    (s1.sigioRaised = true ↔ s1.errno = some EINTR) ∧
    (s1.sigioRaised = true ↔ capturedEvents events ≠ []) ∧
    (∀ pre n rest, events = pre ++ WinEvent.UserEvent n :: rest →
      (∀ e ∈ pre, nonExiting e = true) →
      s1.eventBuffer = s.eventBuffer ∧ s1.sigioRaised = false ∧
        s1.errno = none ∧ (n ≠ 0 → r = n)) := by
  rw [wr_select1_not_inhibited threadSelect pselectFn args ts events s
    hto] at h
  have key : s1 = runReturn { s with nfdsResult := 0 } events ∧
      (s1.nfdsResult ≠ 0 → r = s1.nfdsResult) := by
    split at h
    next h0 =>
      simp only [Option.some.injEq, Prod.mk.injEq] at h
      exact ⟨h.2.symm, fun hne => absurd (h.2 ▸ h0) hne⟩
    next h0 =>
      simp only [Option.some.injEq, Prod.mk.injEq] at h
      exact ⟨h.2.symm, fun _ => h.2 ▸ h.1.symm⟩
  obtain ⟨hs1, hr⟩ := key
  have hsig : s1.sigioRaised = !(capturedEvents events).isEmpty := by
    rw [hs1, runReturn_sigio]
    simp [hs]
  have herr1 : s1.errno =
      if (capturedEvents events).isEmpty then none else some EINTR := by
    rw [hs1, runReturn_errno]
    simp [herr]
  refine ⟨?_, ?_, ?_⟩
  · rw [hsig, herr1]
    cases h2 : capturedEvents events <;> simp [EINTR]
  · rw [hsig]
    cases h2 : capturedEvents events <;> simp
  · intro pre n rest hev hpre
    subst hev
    have hs1' : s1 = { s with nfdsResult := n } := by
      rw [hs1, runReturn_skip_prefix _ pre _ hpre, runReturn_user]
    refine ⟨by rw [hs1'], by rw [hs1']; exact hs, by rw [hs1']; exact herr,
      fun hn => ?_⟩
    have := hr (by rw [hs1']; exact hn)
    rw [this, hs1']

/-- C10 witness: a wake carrying `-1` returns `-1` — the interrupted
sentinel — while raising no signal, leaving errno unset and the buffer
empty. -/
theorem wr_select1_sigio_errno_iff_witness :
    ((⟨[], none, false, -1⟩ : LoopState).sigioRaised = true ↔
      (⟨[], none, false, -1⟩ : LoopState).errno = some EINTR) ∧
    ((⟨[], none, false, -1⟩ : LoopState).sigioRaised = true ↔
      capturedEvents [WinEvent.UserEvent (-1)] ≠ []) ∧
    (∀ pre n rest,
      [WinEvent.UserEvent (-1)] = pre ++ WinEvent.UserEvent n :: rest →
      (∀ e ∈ pre, nonExiting e = true) →
      (⟨[], none, false, -1⟩ : LoopState).eventBuffer =
          (⟨[], none, false, 0⟩ : LoopState).eventBuffer ∧
        (⟨[], none, false, -1⟩ : LoopState).sigioRaised = false ∧
        (⟨[], none, false, -1⟩ : LoopState).errno = none ∧
        (n ≠ 0 → (-1 : Int) = n)) :=
  wr_select1_sigio_errno_iff (fun _ => 0) (fun _ => 0)
    ⟨1, 10, 11, 12, some ⟨1, 0⟩, 13⟩ ⟨1, 0⟩ rfl
    [WinEvent.UserEvent (-1)] ⟨[], none, false, 0⟩ rfl rfl (-1)
    ⟨[], none, false, -1⟩ (by decide)

end EmacsNg
